import Mathlib

/-!
Verification development for the canvas-cli repository.

The Python source is shallowly embedded: Python values that occur in the
configuration files and in the Canvas API records are modelled by `JVal`;
dicts themselves are association lists (`Dict`) with distinct keys, matching
Python's insertion-ordered dicts.  String comparison is lexicographic on
code points, exactly as in Python.  File systems are modelled as a set of
existing directories plus a map from paths to (already parsed) JSON objects;
`open(path, "w")` fails when the parent directory of `path` does not exist
and never creates directories, which the model mirrors.
-/

namespace CanvasCli

/-- A JSON-ish Python value as used by the config files and the API records.
Arrays occur in the source only as lists of strings (`submission_types`),
so the embedding flattens `arr` to `List String`. -/
inductive JVal where
  | null
  | bool (b : Bool)
  | num (n : Int)
  | str (s : String)
  | arr (elems : List String)
deriving DecidableEq, Repr

/-- A Python dict with string keys, in insertion order. -/
abbrev Dict := List (String × JVal)

/-- `d.get(k)`: first binding of `k`, if any (keys are unique in a dict). -/
def dictGet (d : Dict) (k : String) : Option JVal :=
  (d.find? (fun e => decide (e.1 = k))).map (·.2)

/-- Python truthiness of a `JVal`. -/
def JVal.truthy : JVal → Bool
  | .null => false
  | .bool b => b
  | .num n => n != 0
  | .str s => s != ""
  | .arr xs => !xs.isEmpty

/-- Truthiness of `d.get(k)`-style results: `None` is falsy. -/
def optTruthy : Option JVal → Bool
  | none => false
  | some v => v.truthy

/-- Python string `<`: lexicographic comparison on code points. -/
def strLtAux : List Char → List Char → Bool
  | [], [] => false
  | [], _ :: _ => true
  | _ :: _, [] => false
  | a :: as, b :: bs =>
    if a.toNat < b.toNat then true
    else if b.toNat < a.toNat then false
    else strLtAux as bs

/-- Python string `<=`: lexicographic comparison on code points. -/
def strLeAux : List Char → List Char → Bool
  | [], _ => true
  | _ :: _, [] => false
  | a :: as, b :: bs =>
    if a.toNat < b.toNat then true
    else if b.toNat < a.toNat then false
    else strLeAux as bs

/-- Python `s < t` on strings. -/
def pyLt (s t : String) : Bool := strLtAux s.data t.data

/-- Python `s <= t` on strings. -/
def pyLe (s t : String) : Bool := strLeAux s.data t.data

theorem strLeAux_total (s t : List Char) : strLeAux s t = true ∨ strLeAux t s = true := by
  induction s generalizing t with
  | nil => left; rfl
  | cons a as ih =>
    cases t with
    | nil => right; rfl
    | cons b bs =>
      by_cases hab : a.toNat < b.toNat
      · left; simp [strLeAux, hab]
      · by_cases hba : b.toNat < a.toNat
        · right; simp [strLeAux, hba]
        · rcases ih bs with h | h
          · left; simp [strLeAux, hab, hba, h]
          · right; simp [strLeAux, hab, hba, h]

theorem strLeAux_trans (s t u : List Char) (h1 : strLeAux s t = true)
    (h2 : strLeAux t u = true) : strLeAux s u = true := by
  induction s generalizing t u with
  | nil => rfl
  | cons a as ih =>
    cases t with
    | nil => simp [strLeAux] at h1
    | cons b bs =>
      cases u with
      | nil => simp [strLeAux] at h2
      | cons c cs =>
        by_cases hab : a.toNat < b.toNat
        · by_cases hbc : b.toNat < c.toNat
          · have : a.toNat < c.toNat := by omega
            simp [strLeAux, this]
          · by_cases hcb : c.toNat < b.toNat
            · simp [strLeAux, hbc, hcb] at h2
            · have : a.toNat < c.toNat := by omega
              simp [strLeAux, this]
        · by_cases hba : b.toNat < a.toNat
          · simp [strLeAux, hab, hba] at h1
          · simp [strLeAux, hab, hba] at h1
            by_cases hbc : b.toNat < c.toNat
            · have : a.toNat < c.toNat := by omega
              simp [strLeAux, this]
            · by_cases hcb : c.toNat < b.toNat
              · simp [strLeAux, hbc, hcb] at h2
              · simp [strLeAux, hbc, hcb] at h2
                have hac : ¬ a.toNat < c.toNat := by omega
                have hca : ¬ c.toNat < a.toNat := by omega
                simp [strLeAux, hac, hca]
                exact ih bs cs h1 h2

theorem pyLe_total (s t : String) : pyLe s t = true ∨ pyLe t s = true :=
  strLeAux_total s.data t.data

theorem pyLe_trans (s t u : String) (h1 : pyLe s t = true) (h2 : pyLe t u = true) :
    pyLe s u = true :=
  strLeAux_trans s.data t.data u.data h1 h2

/-! ### Configuration store (src/handlers/config_handler.py, src/canvas_cli/constants.py)

A file-system state is a list of existing directories plus a map from
paths (a directory plus a file name) to the parsed JSON object stored in
the file.  `load_config` parses the file if it exists and returns `{}`
otherwise; `save_config` opens the file for writing, which succeeds iff the
parent directory exists (it never creates directories), and replaces the
file contents wholesale. -/

/-- A file path: the containing directory and the file name. -/
structure FsPath where
  dir : String
  file : String
deriving DecidableEq, Repr

/-- File-system state: existing directories and the (parsed) files. -/
structure FileSys where
  dirs : List String
  files : List (FsPath × Dict)
deriving DecidableEq, Repr

/-- `GLOBAL_CONFIG_PATH = Path.home() / ".canvasconfig.json"`. -/
def GLOBAL_CONFIG_PATH : FsPath := ⟨"home", ".canvasconfig.json"⟩

/-- `LOCAL_CONFIG_PATH = Path.cwd() / ".canvasconfig.json"`. -/
def LOCAL_CONFIG_PATH : FsPath := ⟨"cwd", ".canvasconfig.json"⟩

/-- `load_config`: return the parsed contents if the file exists, else `{}`. -/
def load_config (fs : FileSys) (p : FsPath) : Dict :=
  match fs.files.find? (fun e => decide (e.1 = p)) with
  | some e => e.2
  | none => []

/-- `save_config`: `open(path, "w")` + `json.dump`, replacing the file
wholesale.  Fails (Python `FileNotFoundError`) when the parent directory
does not exist; no directory is ever created. -/
def save_config (fs : FileSys) (p : FsPath) (config : Dict) : Except String FileSys :=
  if p.dir ∈ fs.dirs then
    .ok { fs with files := (p, config) :: fs.files.filter (fun e => decide (e.1 ≠ p)) }
  else
    .error "FileNotFoundError"

/-- `get_config_path`: global wins; both non-global branches return the
local path (the `local or LOCAL_CONFIG_PATH.exists()` test is irrelevant to
the result). -/
def get_config_path (global_ _lcl : Bool) : FsPath :=
  if global_ then GLOBAL_CONFIG_PATH else LOCAL_CONFIG_PATH

/-- `get_cascading_config_value`: per-call override wins outright; else the
Python expression `local_config.get(key) or global_config.get(key)`. -/
def get_cascading_config_value (fs : FileSys) (key : String) (override : Option JVal) :
    Option JVal :=
  match override with
  | some o => some o
  | none =>
    let localVal := dictGet (load_config fs LOCAL_CONFIG_PATH) key
    if optTruthy localVal then localVal
    else dictGet (load_config fs GLOBAL_CONFIG_PATH) key

/-- `ctx.params.get(key)` as an override: typer stores `None` for options the
user did not pass, and `get_cascading_config_value` checks `override is not
None`, so a stored `None` behaves like an absent key. -/
def pyParamGet (params : Dict) (key : String) : Option JVal :=
  match dictGet params key with
  | some .null => none
  | v => v

/-- `get_key = lambda key, ctx: get_cascading_config_value(key, ctx.params.get(key))`. -/
def get_key (fs : FileSys) (params : Dict) (key : String) : Option JVal :=
  get_cascading_config_value fs key (pyParamGet params key)

/-- `del config[key]`: drop the binding of `key`, keeping all others. -/
def delKey (config : Dict) (k : String) : Dict :=
  config.filter (fun e => decide (e.1 ≠ k))

/-- Observable outcome of `handle_config_unset` (which message was echoed). -/
inductive UnsetMsg where
  | unsetOk
  | notFound
deriving DecidableEq, Repr

/-- `handle_config_unset`: reject both scopes at once; otherwise remove the
key from the selected scope file when present (writing the file back), and
only report "not found" (no write at all) when absent. -/
def handle_config_unset (fs : FileSys) (key : String) (global_ lcl : Bool) :
    Except String (UnsetMsg × FileSys) :=
  if global_ && lcl then
    .error "BadParameter: Cannot set config in both --global and --local scope at the same time."
  else
    let p := get_config_path global_ lcl
    let config := load_config fs p
    if (dictGet config key).isSome then
      (save_config fs p (delKey config key)).map (fun fs' => (.unsetOk, fs'))
    else
      .ok (.notFound, fs)

/-! ### Fuzzy filter (src/canvas_cli/tui.py, `fuzzy_filter`)

The source builds the regex `'.*?'.join(map(re.escape, query))` and keeps
the items whose key text it matches with `re.IGNORECASE`.  That regex
matches a text iff the query characters occur in the text in order (not
necessarily contiguously), compared case-insensitively; the embedding uses
the equivalent greedy subsequence test on lower-cased characters
(`Char.toLower`, which covers the ASCII range the TUI feeds in). -/

/-- Greedy case-insensitive subsequence test: do the characters of the first
list occur, in order, in the second? -/
def subseqCI : List Char → List Char → Bool
  | [], _ => true
  | _ :: _, [] => false
  | c :: cs, d :: ds =>
    if c.toLower = d.toLower then subseqCI cs ds else subseqCI (c :: cs) ds

/-- `fuzzy_filter(items, query, key)` from tui.py. -/
def fuzzy_filter {α : Type _} (items : List α) (query : String) (key : α → String) : List α :=
  if query = "" then items
  else items.filter (fun i => subseqCI query.data (key i).data)

theorem subseqCI_nil_left (s : List Char) : subseqCI [] s = true := by
  cases s <;> rfl

/-- Inversion for a sublist between two nonempty lists. -/
theorem sublist_cons_cases {α : Type _} {x y : α} {l1 l2 : List α}
    (h : (x :: l1).Sublist (y :: l2)) :
    (x :: l1).Sublist l2 ∨ (x = y ∧ l1.Sublist l2) := by
  cases h with
  | cons _ h' => exact Or.inl h'
  | cons₂ _ h' => exact Or.inr ⟨rfl, h'⟩

/-- The greedy test is equivalent to subsequence containment of the
lower-cased character lists. -/
theorem subseqCI_iff_sublist (q s : List Char) :
    subseqCI q s = true ↔ (q.map Char.toLower).Sublist (s.map Char.toLower) := by
  induction s generalizing q with
  | nil =>
    cases q with
    | nil => simp [subseqCI]
    | cons c cs => simp [subseqCI]
  | cons d ds ih =>
    cases q with
    | nil => simp [subseqCI_nil_left]
    | cons c cs =>
      by_cases h : c.toLower = d.toLower
      · simp only [subseqCI, if_pos h, List.map_cons, h]
        constructor
        · intro hs
          exact List.Sublist.cons₂ _ ((ih cs).mp hs)
        · intro hs
          rcases sublist_cons_cases hs with h1 | ⟨_, h2⟩
          · have hdrop : (cs.map Char.toLower).Sublist (d.toLower :: cs.map Char.toLower) :=
              List.sublist_cons_self _ _
            exact (ih cs).mpr (hdrop.trans h1)
          · exact (ih cs).mpr h2
      · simp only [subseqCI, if_neg h, List.map_cons]
        rw [ih (c :: cs)]
        constructor
        · intro hs
          have hs2 : (c.toLower :: cs.map Char.toLower).Sublist (ds.map Char.toLower) := by
            simpa [List.map_cons] using hs
          exact hs2.trans (List.sublist_cons_self d.toLower _)
        · intro hs
          rcases sublist_cons_cases hs with h1 | ⟨heq, _⟩
          · simpa [List.map_cons] using h1
          · exact absurd heq h

/-! ### ListSelector (src/canvas_cli/tui.py, `ListSelector.run`)

The selector state keeps the fields of `ListSelector` that feed back into
selection (`items`, `query`, `filtered`, `selected`, `allow_escape_back`);
the purely visual fields (`top`, `hovered`, title, columns) do not affect
which item is selected or returned and are omitted.  `selected` is an `Int`
because the source computes `min(len(self.filtered)-1, ...)`, which is `-1`
on an empty filtered list.  One iteration of `run`'s `while True` loop
either returns (Enter, Escape, mouse click) or processes the key and then
re-runs the fuzzy filter and clamps the selection (tui.py lines 164-168). -/

/-- Key events fed to `ListSelector.run`.  `chr c` is a plain character key
(the source appends it to the query only when `32 <= ch < 127`). -/
inductive SelEvent where
  | up
  | down
  | enter
  | escape
  | chr (c : Char)
  | backspace
  | delWord
deriving DecidableEq, Repr

/-- Result of a selector session: a picked item, the distinguished
`"__ESCAPE__"` back signal, `None`, or a Python `IndexError` crash
(`self.filtered[self.selected]` with an out-of-range index). -/
inductive SelResult (α : Type _) where
  | picked (a : α)
  | back
  | noSelection
  | indexError
deriving DecidableEq, Repr

/-- Selector state. -/
structure Sel (α : Type _) where
  items : List α
  keyf : α → String
  query : String
  filtered : List α
  selected : Int
  allowEscapeBack : Bool

/-- One loop iteration either continues with a new state or returns. -/
inductive SelStep (α : Type _) where
  | cont (s : Sel α)
  | done (r : SelResult α)

/-- Python list indexing, including negative "from the end" indices;
`none` models an `IndexError`. -/
def pyIndex {α : Type _} (l : List α) (i : Int) : Option α :=
  if 0 ≤ i ∧ i < l.length then l.get? i.toNat
  else if -(l.length : Int) ≤ i ∧ i < 0 then l.get? (l.length - (-i).toNat)
  else none

/-- `re.sub(r'\S+\s*$', '', query)`: drop the trailing whitespace run and
the non-whitespace run before it; a query with no non-whitespace character
is left unchanged (the regex requires `\S+`). -/
def delWordStr (q : String) : String :=
  let r := q.data.reverse
  let r1 := r.dropWhile (fun c => c.isWhitespace)
  match r1 with
  | [] => q
  | _ :: _ => ⟨(r1.dropWhile (fun c => !c.isWhitespace)).reverse⟩

/-- Lines 164-168 of tui.py: recompute `filtered` from the current query and
clamp `selected` when it points past the end
(`self.selected = max(0, len(self.filtered)-1)`). -/
def refilterClamp {α : Type _} (s : Sel α) : Sel α :=
  { s with
    filtered := fuzzy_filter s.items s.query s.keyf,
    selected :=
      if s.selected ≥ ((fuzzy_filter s.items s.query s.keyf).length : Int) then
        max 0 (((fuzzy_filter s.items s.query s.keyf).length : Int) - 1)
      else s.selected }

/-- One iteration of `ListSelector.run`'s event loop. -/
def selStep {α : Type _} (s : Sel α) (e : SelEvent) : SelStep α :=
  match e with
  | .up => .cont (refilterClamp { s with selected := max 0 (s.selected - 1) })
  | .down => .cont (refilterClamp { s with selected := min ((s.filtered.length : Int) - 1) (s.selected + 1) })
  | .enter =>
    .done (match pyIndex s.filtered s.selected with
      | some a => .picked a
      | none => .indexError)
  | .escape => .done (if s.allowEscapeBack then .back else .noSelection)
  | .chr c =>
    let q := if 32 ≤ c.toNat ∧ c.toNat < 127 then s.query.push c else s.query
    .cont (refilterClamp { s with query := q })
  | .backspace => .cont (refilterClamp { s with query := ⟨s.query.data.dropLast⟩ })
  | .delWord => .cont (refilterClamp { s with query := delWordStr s.query })

/-- Initial state of a `ListSelector` session (its `__init__`). -/
def initSel {α : Type _} (items : List α) (keyf : α → String) (allowEscapeBack : Bool) : Sel α :=
  { items := items, keyf := keyf, query := "", filtered := items, selected := 0,
    allowEscapeBack := allowEscapeBack }

/-- Events that mutate the search query. -/
def isQueryMut : SelEvent → Bool
  | .chr _ => true
  | .backspace => true
  | .delWord => true
  | _ => false

/-- Fold a sequence of non-returning events over the state. -/
def selRun {α : Type _} (s : Sel α) (evs : List SelEvent) : Sel α :=
  evs.foldl (fun s e => match selStep s e with | .cont s' => s' | .done _ => s) s

/-! ### Course and assignment sorting (src/canvas_cli/handler_helper.py) -/

/-- Key membership test `'name' in c`. -/
def hasKey (d : Dict) (k : String) : Bool := (dictGet d k).isSome

/-- The name component of the course sort key, `c.get('name', '')`.  All
courses reaching the sort key have a `name`; non-string names (which would
make Python's tuple comparison raise) are mapped to `""`. -/
def nameKey (c : Dict) : String :=
  match dictGet c "name" with
  | some (.str s) => s
  | _ => ""

/-- `not c.get('is_favorite', False)` — `False` sorts first, so favorites
come first. -/
def notFavKey (c : Dict) : Bool := !optTruthy (dictGet c "is_favorite")

/-- Lexicographic order on the Python sort key
`(not c.get('is_favorite', False), c.get('name', ''))`. -/
def courseLe (c d : Dict) : Prop :=
  ((!(notFavKey c) && notFavKey d) || (notFavKey c == notFavKey d && pyLe (nameKey c) (nameKey d))) = true

instance : DecidableRel courseLe := fun _ _ =>
  inferInstanceAs (Decidable (_ = true))

instance : IsTotal Dict courseLe := by
  constructor
  intro c d
  unfold courseLe
  cases hc : notFavKey c <;> cases hd : notFavKey d <;>
    simp <;> rcases pyLe_total (nameKey c) (nameKey d) with h | h <;> simp [h]

instance : IsTrans Dict courseLe := by
  constructor
  intro a b c hab hbc
  unfold courseLe at hab hbc ⊢
  cases ha : notFavKey a <;> cases hb : notFavKey b <;> cases hc : notFavKey c <;>
    simp [ha, hb, hc] at hab hbc ⊢ <;>
    exact pyLe_trans _ _ _ hab hbc

/-- `sort_courses`: drop courses without a `'name'` key, then stable-sort by
`(not is_favorite, name)`. -/
def sort_courses (courses : List Dict) : List Dict :=
  List.insertionSort courseLe (courses.filter (fun c => hasKey c "name"))

/-- Order on assignments: ascending by `a.get('due_at') or '9999-12-31'`. -/
def dueKey (a : Dict) : String :=
  match dictGet a "due_at" with
  | some (.str s) => if s = "" then "9999-12-31" else s
  | _ => "9999-12-31"

def dueLe (a b : Dict) : Prop := pyLe (dueKey a) (dueKey b) = true

instance : DecidableRel dueLe := fun _ _ =>
  inferInstanceAs (Decidable (_ = true))

instance : IsTotal Dict dueLe := ⟨fun a b => pyLe_total (dueKey a) (dueKey b)⟩

instance : IsTrans Dict dueLe := ⟨fun a b c => pyLe_trans (dueKey a) (dueKey b) (dueKey c)⟩

/-- `isinstance(a.get('submission_types'), list) and 'online_upload' in ...`. -/
def uploadable (a : Dict) : Bool :=
  match dictGet a "submission_types" with
  | some (.arr xs) => xs.contains "online_upload"
  | _ => false

/-- Python `v and v < now` for an optional date value: truthy string
compared lexicographically against `now`; `None`/absent/empty is falsy.
(Non-string truthy values would raise a `TypeError` in Python; the records
in scope carry ISO-8601 strings or `null`.) -/
def pastCheck (v : Option JVal) (now : String) : Bool :=
  match v with
  | some (.str s) => s ≠ "" && pyLt s now
  | _ => false

/-- The five priority buckets of `sort_assignments`. -/
inductive ACat where
  | futureUnsubmitted
  | futureSubmitted
  | pastUnsubmitted
  | pastSubmitted
  | locked
deriving DecidableEq, Repr

/-- Bucket classification of one assignment (the `for a in valid_assignments`
body of `sort_assignments`). -/
def classify (now : String) (a : Dict) : ACat :=
  let submitted := optTruthy (dictGet a "has_submitted_submissions")
  let isLocked := pastCheck (dictGet a "lock_at") now
  let pastDue := pastCheck (dictGet a "due_at") now
  if isLocked then .locked
  else if !pastDue && !submitted then .futureUnsubmitted
  else if !pastDue && submitted then .futureSubmitted
  else if pastDue && !submitted then .pastUnsubmitted
  else .pastSubmitted

/-- One sorted priority bucket.  The source appends each valid assignment to
exactly one bucket list while traversing in order, which is the same as an
order-preserving filter by the classification, and then sorts each bucket by
`a.get('due_at') or '9999-12-31'` with Python's stable sort. -/
def bucket (now : String) (cat : ACat) (assignments : List Dict) : List Dict :=
  List.insertionSort dueLe
    ((assignments.filter uploadable).filter (fun a => decide (classify now a = cat)))

/-- `sort_assignments`: keep `online_upload`-capable assignments, bucket by
status, sort each bucket by due date, concatenate in priority order.
`now = datetime.now().isoformat()` is passed explicitly. -/
def sort_assignments (now : String) (assignments : List Dict) : List Dict :=
  bucket now .futureUnsubmitted assignments ++ (bucket now .futureSubmitted assignments ++
    (bucket now .pastUnsubmitted assignments ++ (bucket now .pastSubmitted assignments ++
      bucket now .locked assignments)))

/-! ### Fallback text workflow (src/canvas_cli/tui_fallback.py, and the
`tui_fallback` branch of `run_tui` in src/canvas_cli/tui.py)

User interaction is modelled by the stream of `input()` lines; issuing a
prompt is consuming an element of that stream.  The re-prompt loops
(`while True: ... input(...)`) consume one line per iteration; when the
stream runs dry the Python loop would block forever on `input()` (an
`EOFError` is swallowed by the bare `except Exception`), which the model
renders as a `none` selection with the stream exhausted. -/

/-- The numbered-selection loop: repeatedly read a line until it parses as
an integer `sel` with `1 <= sel <= len(l)`. -/
def selectNum {α : Type _} (l : List α) : List String → Option α × List String
  | [] => (none, [])
  | i :: rest =>
    match i.toInt? with
    | some n =>
      if 1 ≤ n ∧ n ≤ (l.length : Int) then (l.get? (n - 1).toNat, rest)
      else selectNum l rest
    | none => selectNum l rest

/-- The file-selection loop: like `selectNum` but a `q` answer (after
`.strip().lower()`) skips the file. -/
def selectFile (files : List String) : List String → Option String × List String
  | [] => (none, [])
  | i :: rest =>
    if i.trim.toLower = "q" then (none, rest)
    else
      match i.toInt? with
      | some n =>
        if 1 ≤ n ∧ n ≤ (files.length : Int) then (files.get? (n - 1).toNat, rest)
        else selectFile files rest
      | none => selectFile files rest

/-- The assignment and file stages of `fallback_tui`, given the selected
course: a singleton stage list auto-selects without reading input. -/
def fallback_tui_after (c : Dict) (assignments : Option (List Dict))
    (files : Option (List String)) (inputs : List String) :
    Option Dict × Option Dict × Option String × List String :=
  let ar :=
    match assignments with
    | some [a] => (some a, inputs)
    | some (a :: b :: rest) => selectNum (a :: b :: rest) inputs
    | _ => (none, inputs)
  let fr :=
    match files with
    | some [f] => (some f, ar.2)
    | some (f :: g :: rest) => selectFile (f :: g :: rest) ar.2
    | _ => (none, ar.2)
  (some c, ar.1, fr.1, fr.2)

/-- `fallback_tui(courses, assignments, files)`: course stage, then optional
assignment and file stages; a stage whose list has exactly one entry is
auto-selected without reading input. -/
def fallback_tui (courses : List Dict) (assignments : Option (List Dict))
    (files : Option (List String)) (inputs : List String) :
    Option Dict × Option Dict × Option String × List String :=
  match courses with
  | [] => (none, none, none, inputs)
  | [c] => fallback_tui_after c assignments files inputs
  | _ =>
    match selectNum courses inputs with
    | (some c, rest) => fallback_tui_after c assignments files rest
    | (none, rest) => (none, none, none, rest)

/-- The `tui_fallback` branch of `run_tui` (tui.py lines 328-353), entered
after the token/host check succeeded.  `apiAssignments` models
`api.get_assignments(course.get('id'))` and `files` models the
`os.listdir('.')` file list. -/
def runTuiFallback (file_select_enabled : Bool) (now : String) (rawCourses : List Dict)
    (apiAssignments : Option JVal → List Dict) (files : List String) (inputs : List String) :
    (Option Dict × Option Dict × Option String) × List String :=
  let courses := sort_courses rawCourses
  if courses.isEmpty then ((none, none, none), inputs)
  else
    let (course?, _, _, rest1) := fallback_tui courses none none inputs
    match course? with
    | none => ((none, none, none), rest1)
    | some course =>
      if course.isEmpty then ((none, none, none), rest1)  -- `if not course`
      else
        let assignments := sort_assignments now (apiAssignments (dictGet course "id"))
        if assignments.isEmpty then
          -- `if assignments:` fails; assignment stays None
          if file_select_enabled then
            let (_, _, file?, rest2) := fallback_tui [course] none (some files) rest1
            ((some course, none, file?), rest2)
          else ((some course, none, none), rest1)
        else
          let (assignment?, _, _, rest2) := fallback_tui [course] (some assignments) none rest1
          match assignment? with
          | none => ((some course, none, none), rest2)
          | some assignment =>
            if assignment.isEmpty then ((some course, none, none), rest2)  -- `if not assignment`
            else
              if file_select_enabled then
                let (_, _, file?, rest3) :=
                  fallback_tui [course] (some [assignment]) (some files) rest2
                ((some course, some assignment, file?), rest3)
              else ((some course, some assignment, none), rest2)

/-! ### Push handler (src/handlers/push_handler.py, `handle_push`)

`run_tui`'s result is a parameter: `none` models `run_tui` returning `None`
(never happens for the tuple-returning paths, but kept for the `if out is
None` guard), `some (c?, a?, f?)` models the returned triple.  The model
stops at the point of the `api.submit_assignment(course_id, assignment_id,
file)` call and records the arguments passed to it. -/

/-- Observable outcome of `handle_push`. -/
inductive PushOutcome where
  | aborted
  | missingIds
  | missingFile
  | fileNotFound
  | submitted (course_id assignment_id file : Option JVal)
deriving DecidableEq, Repr

/-- The part of `handle_push` after the TUI block: the ids and the file are
(re)resolved from `ctx.params` and the config cascade, then validated, then
handed to `api.submit_assignment`. -/
def handle_push_rest (fs : FileSys) (params : Dict) (existingFiles : List String) :
    PushOutcome :=
  let course_id := get_key fs params "course_id"
  let assignment_id := get_key fs params "assignment_id"
  let file := get_key fs params "file"
  if !optTruthy course_id || !optTruthy assignment_id then .missingIds
  else if !optTruthy file then .missingFile
  else
    let fileExists := match file with
      | some (.str s) => existingFiles.contains s
      | _ => false
    if fileExists then .submitted course_id assignment_id file
    else .fileNotFound

/-- `handle_push` with `tui=True`: the TUI triple is unpacked and its ids are
assigned to the local variables, but those locals are unconditionally
overwritten by `get_key` immediately afterwards (push_handler.py lines
38-41), so the TUI selections never reach the validation or the API call. -/
def handle_push (fs : FileSys) (params : Dict) (tui : Bool)
    (tuiOut : Option (Option Dict × Option Dict × Option String))
    (existingFiles : List String) : PushOutcome :=
  if tui then
    match tuiOut with
    | none => .aborted
    | some (course?, assignment?, _file?) =>
      if course?.isNone || assignment?.isNone then .aborted
      else handle_push_rest fs params existingFiles
  else handle_push_rest fs params existingFiles

/-! ## Claim theorems -/

/-- Claim C1: cascading config resolution.  A non-`None` override is
returned unchanged whatever the files contain; otherwise a present and
truthy Local value wins; an absent or falsy Local value falls through to
the Global value (whatever it is); a key in neither scope resolves to
`None`. -/
theorem C1_cascading_resolution (fs : FileSys) (key : String) :
    (∀ o : JVal, get_cascading_config_value fs key (some o) = some o) ∧
    (∀ v : JVal, dictGet (load_config fs LOCAL_CONFIG_PATH) key = some v → v.truthy = true →
      get_cascading_config_value fs key none = some v) ∧
    (optTruthy (dictGet (load_config fs LOCAL_CONFIG_PATH) key) = false →
      get_cascading_config_value fs key none = dictGet (load_config fs GLOBAL_CONFIG_PATH) key) ∧
    (dictGet (load_config fs LOCAL_CONFIG_PATH) key = none →
      dictGet (load_config fs GLOBAL_CONFIG_PATH) key = none →
      get_cascading_config_value fs key none = none) := by
  refine ⟨fun o => rfl, fun v hv htr => ?_, fun hf => ?_, fun hl hg => ?_⟩
  · simp [get_cascading_config_value, hv, optTruthy, htr]
  · simp [get_cascading_config_value, hf]
  · simp [get_cascading_config_value, hl, hg, optTruthy]

/-- Concrete files for the C1 witness: Local has a truthy `"k"` and a falsy
(empty-string) `"e"`; Global has both and nothing else. -/
def fsC1 : FileSys :=
  ⟨["home", "cwd"],
   [(LOCAL_CONFIG_PATH, [("k", .str "a"), ("e", .str "")]),
    (GLOBAL_CONFIG_PATH, [("k", .str "b"), ("e", .str "g")])]⟩

/-- Witness for C1 at concrete files: override wins, Local truthy wins,
falsy Local falls through to Global, missing key gives `None`. -/
theorem C1_cascading_resolution_witness :
    get_cascading_config_value fsC1 "k" (some (.str "z")) = some (.str "z") ∧
    get_cascading_config_value fsC1 "k" none = some (.str "a") ∧
    get_cascading_config_value fsC1 "e" none = some (.str "g") ∧
    get_cascading_config_value fsC1 "m" none = none :=
  ⟨(C1_cascading_resolution fsC1 "k").1 (.str "z"),
   (C1_cascading_resolution fsC1 "k").2.1 (.str "a") (by decide) (by decide),
   (C1_cascading_resolution fsC1 "e").2.2.1 (by decide),
   (C1_cascading_resolution fsC1 "m").2.2.2 (by decide) (by decide)⟩

/-- Claim C2: the fuzzy filter returns the subsequence of `items` whose
projected text contains all query characters in order, case-insensitively;
the empty query returns the list unchanged; the result is a sublist of the
input (original relative order preserved).  Determinism and freedom from
side effects hold by construction of the embedding (a pure function). -/
theorem C2_fuzzy_filter {α : Type _} (items : List α) (query : String) (key : α → String) :
    fuzzy_filter items "" key = items ∧
    (fuzzy_filter items query key).Sublist items ∧
    (∀ i, i ∈ fuzzy_filter items query key ↔
      i ∈ items ∧ (query.data.map Char.toLower).Sublist ((key i).data.map Char.toLower)) := by
  refine ⟨rfl, ?_, ?_⟩
  · by_cases h : query = ""
    · simp [fuzzy_filter, h]
    · simp only [fuzzy_filter, if_neg h]
      exact List.filter_sublist items
  · intro i
    by_cases h : query = ""
    · subst h
      simp [fuzzy_filter]
    · simp only [fuzzy_filter, if_neg h, List.mem_filter]
      rw [subseqCI_iff_sublist]

/-- Witness for C2: the case-insensitive example from the spec,
`fuzzy_filter(["Apple"], "APP") == ["Apple"]`, via the characterization. -/
theorem C2_fuzzy_filter_witness :
    fuzzy_filter ["Apple"] "" id = ["Apple"] ∧
    (fuzzy_filter ["Apple"] "APP" id).Sublist ["Apple"] ∧
    ("Apple" ∈ fuzzy_filter ["Apple"] "APP" id ↔
      "Apple" ∈ ["Apple"] ∧
        ("APP".data.map Char.toLower).Sublist ("Apple".data.map Char.toLower)) :=
  ⟨(C2_fuzzy_filter ["Apple"] "APP" id).1,
   (C2_fuzzy_filter ["Apple"] "APP" id).2.1,
   (C2_fuzzy_filter ["Apple"] "APP" id).2.2 "Apple"⟩

/-- Selector invariant: the selection is never negative, is `0` (a
placeholder pointing at nothing, i.e. no valid selection) when the filtered
list is empty, and is a valid index otherwise. -/
def selInv {α : Type _} (s : Sel α) : Prop :=
  0 ≤ s.selected ∧
    (s.filtered = [] → s.selected = 0) ∧
    (s.filtered ≠ [] → s.selected < s.filtered.length)

theorem selInv_refilterClamp {α : Type _} (s : Sel α) (h : 0 ≤ s.selected) :
    selInv (refilterClamp s) := by
  unfold refilterClamp selInv
  dsimp only
  generalize fuzzy_filter s.items s.query s.keyf = f
  by_cases hsel : s.selected ≥ (f.length : Int)
  · simp only [if_pos hsel]
    refine ⟨le_max_left 0 _, fun hnil => ?_, fun hne => ?_⟩
    · subst hnil; simp
    · have hlen : 1 ≤ (f.length : Int) := by
        cases f with
        | nil => exact absurd rfl hne
        | cons x xs => simp
      rw [max_eq_right (by omega)]
      omega
  · simp only [if_neg hsel]
    push_neg at hsel
    refine ⟨h, fun hnil => ?_, fun _ => hsel⟩
    subst hnil
    simp at hsel
    omega

/-- Lines 166-168 of tui.py as a clamping statement: on a nonempty new
filtered list an out-of-range selection becomes the last valid index; on an
empty one it becomes the placeholder `0`. -/
theorem refilterClamp_clamps {α : Type _} (s : Sel α) (h : 0 ≤ s.selected) :
    ((refilterClamp s).filtered = [] → (refilterClamp s).selected = 0) ∧
    ((refilterClamp s).filtered ≠ [] →
      s.selected ≥ ((refilterClamp s).filtered.length : Int) →
      (refilterClamp s).selected = ((refilterClamp s).filtered.length : Int) - 1) := by
  unfold refilterClamp
  dsimp only
  generalize fuzzy_filter s.items s.query s.keyf = f
  constructor
  · intro hnil
    subst hnil
    simp only [List.length_nil, Nat.cast_zero]
    rw [if_pos (by omega)]
    simp
  · intro hne hge
    rw [if_pos hge]
    have hlen : 1 ≤ (f.length : Int) := by
      cases f with
      | nil => exact absurd rfl hne
      | cons x xs => simp
    rw [max_eq_right (by omega)]

theorem selInv_initSel {α : Type _} (items : List α) (keyf : α → String) (esc : Bool) :
    selInv (initSel items keyf esc) := by
  unfold initSel selInv
  cases items with
  | nil => simp
  | cons x xs => simp

theorem selInv_step {α : Type _} (s : Sel α) (e : SelEvent) (hmut : isQueryMut e = true)
    (h : selInv s) : ∀ s', selStep s e = .cont s' → selInv s' := by
  intro s' hstep
  cases e with
  | chr c =>
    simp only [selStep] at hstep
    cases hstep
    exact selInv_refilterClamp _ h.1
  | backspace =>
    simp only [selStep] at hstep
    cases hstep
    exact selInv_refilterClamp _ h.1
  | delWord =>
    simp only [selStep] at hstep
    cases hstep
    exact selInv_refilterClamp _ h.1
  | up => simp [isQueryMut] at hmut
  | down => simp [isQueryMut] at hmut
  | enter => simp [isQueryMut] at hmut
  | escape => simp [isQueryMut] at hmut

theorem selInv_selRun {α : Type _} (s : Sel α) (evs : List SelEvent)
    (hmut : ∀ e ∈ evs, isQueryMut e = true) (h : selInv s) : selInv (selRun s evs) := by
  induction evs generalizing s with
  | nil => exact h
  | cons e rest ih =>
    have he : isQueryMut e = true := hmut e (List.mem_cons_self e rest)
    have hrest : ∀ e' ∈ rest, isQueryMut e' = true := fun e' h' => hmut e' (List.mem_cons_of_mem e h')
    simp only [selRun, List.foldl_cons]
    cases hstep : selStep s e with
    | cont s' =>
      have := selInv_step s e he h s' hstep
      simpa [selRun, hstep] using ih s' hrest this
    | done r =>
      -- query mutations never return; contradiction
      cases e <;> simp [isQueryMut] at he <;> simp [selStep] at hstep

/-- Claim C3: in a selector session, after any sequence of query mutations
the selected index is a valid index into the filtered list whenever that
list is nonempty, and is the no-selection placeholder `0` when it is empty;
moreover each single mutation clamps an index that would point past the end
of the new filtered list to the last valid index (or to the placeholder on
an empty list). -/
theorem C3_selector_clamp {α : Type _} (items : List α) (keyf : α → String) (esc : Bool)
    (evs : List SelEvent) (hmut : ∀ e ∈ evs, isQueryMut e = true) :
    ((selRun (initSel items keyf esc) evs).filtered = [] →
      (selRun (initSel items keyf esc) evs).selected = 0) ∧
    ((selRun (initSel items keyf esc) evs).filtered ≠ [] →
      0 ≤ (selRun (initSel items keyf esc) evs).selected ∧
      (selRun (initSel items keyf esc) evs).selected <
        (selRun (initSel items keyf esc) evs).filtered.length) ∧
    (∀ t : Sel α, ∀ e : SelEvent, isQueryMut e = true → 0 ≤ t.selected →
      ∀ t', selStep t e = .cont t' →
        (t'.filtered = [] → t'.selected = 0) ∧
        (t'.filtered ≠ [] → (t.selected ≥ (t'.filtered.length : Int) →
          t'.selected = (t'.filtered.length : Int) - 1))) := by
  have hinv := selInv_selRun (initSel items keyf esc) evs hmut (selInv_initSel items keyf esc)
  refine ⟨hinv.2.1, fun hne => ⟨hinv.1, hinv.2.2 hne⟩, ?_⟩
  intro t e hq hsel t' hstep
  cases e with
  | chr c =>
    simp only [selStep] at hstep
    cases hstep
    exact refilterClamp_clamps _ hsel
  | backspace =>
    simp only [selStep] at hstep
    cases hstep
    exact refilterClamp_clamps _ hsel
  | delWord =>
    simp only [selStep] at hstep
    cases hstep
    exact refilterClamp_clamps _ hsel
  | up => simp [isQueryMut] at hq
  | down => simp [isQueryMut] at hq
  | enter => simp [isQueryMut] at hq
  | escape => simp [isQueryMut] at hq

/-- Witness for C3 at a concrete session: two items, one printable-character
query mutation. -/
theorem C3_selector_clamp_witness :
    (∀ e ∈ [SelEvent.chr 'x'], isQueryMut e = true) ∧
    (((selRun (initSel ["ab", "xy"] id false) [SelEvent.chr 'x']).filtered = [] →
      (selRun (initSel ["ab", "xy"] id false) [SelEvent.chr 'x']).selected = 0) ∧
    ((selRun (initSel ["ab", "xy"] id false) [SelEvent.chr 'x']).filtered ≠ [] →
      0 ≤ (selRun (initSel ["ab", "xy"] id false) [SelEvent.chr 'x']).selected ∧
      (selRun (initSel ["ab", "xy"] id false) [SelEvent.chr 'x']).selected <
        (selRun (initSel ["ab", "xy"] id false) [SelEvent.chr 'x']).filtered.length) ∧
    (∀ t : Sel String, ∀ e : SelEvent, isQueryMut e = true → 0 ≤ t.selected →
      ∀ t', selStep t e = .cont t' →
        (t'.filtered = [] → t'.selected = 0) ∧
        (t'.filtered ≠ [] → (t.selected ≥ (t'.filtered.length : Int) →
          t'.selected = (t'.filtered.length : Int) - 1)))) :=
  ⟨by decide,
   C3_selector_clamp ["ab", "xy"] id false [SelEvent.chr 'x'] (by decide)⟩

/-- Claim C8: in any selector state, Escape returns the distinguished back
signal exactly when `allow_escape_back` is set and the null (no-selection)
result otherwise; the two results are distinct. -/
theorem C8_escape_behavior {α : Type _} (s : Sel α) :
    selStep s .escape =
      .done (if s.allowEscapeBack then SelResult.back else SelResult.noSelection) ∧
    (SelResult.back ≠ (SelResult.noSelection : SelResult α)) :=
  ⟨rfl, by simp⟩

/-- Members of `sort_courses` carry a `'name'` key. -/
theorem mem_sort_courses_hasName {courses : List Dict} {c : Dict}
    (h : c ∈ sort_courses courses) : hasKey c "name" = true := by
  unfold sort_courses at h
  rw [List.mem_insertionSort] at h
  exact (List.mem_filter.mp h).2

/-- Claim C10: `sort_courses` keeps exactly the courses carrying a `'name'`
key (as a permutation of that filter), every returned course has a name,
and the result is ordered by the key `(not is_favorite, name)`, i.e.
favorites first and then by name. -/
theorem C10_sort_courses (courses : List Dict) :
    List.Perm (sort_courses courses) (courses.filter (fun c => hasKey c "name")) ∧
    (∀ c ∈ sort_courses courses, hasKey c "name" = true) ∧
    List.Sorted courseLe (sort_courses courses) := by
  refine ⟨List.perm_insertionSort courseLe _, ?_, List.sorted_insertionSort courseLe _⟩
  intro c hc
  exact mem_sort_courses_hasName hc

/-- Members of any bucket of `sort_assignments` are `online_upload`-capable
and classified into that bucket. -/
theorem mem_bucket {now : String} {cat : ACat} {l : List Dict} {a : Dict}
    (h : a ∈ bucket now cat l) : uploadable a = true ∧ classify now a = cat := by
  unfold bucket at h
  rw [List.mem_insertionSort] at h
  have h1 := List.mem_filter.mp h
  have h2 := List.mem_filter.mp h1.1
  exact ⟨h2.2, by simpa using h1.2⟩

/-- Members of `sort_assignments` are `online_upload`-capable. -/
theorem mem_sort_assignments_uploadable {now : String} {l : List Dict} {a : Dict}
    (h : a ∈ sort_assignments now l) : uploadable a = true := by
  unfold sort_assignments at h
  simp only [List.mem_append] at h
  rcases h with (h | (h | (h | (h | h)))) <;> exact (mem_bucket h).1

/-- Hoist a cons over one append. -/
theorem perm_hoist1 {α : Type _} (x : α) (a l : List α) :
    List.Perm (a ++ x :: l) (x :: (a ++ l)) := List.perm_middle

/-- Hoist a cons over two appends. -/
theorem perm_hoist2 {α : Type _} (x : α) (a b l : List α) :
    List.Perm (a ++ (b ++ x :: l)) (x :: (a ++ (b ++ l))) :=
  ((perm_hoist1 x b l).append_left a).trans List.perm_middle

/-- Hoist a cons over three appends. -/
theorem perm_hoist3 {α : Type _} (x : α) (a b c l : List α) :
    List.Perm (a ++ (b ++ (c ++ x :: l))) (x :: (a ++ (b ++ (c ++ l)))) :=
  ((perm_hoist2 x b c l).append_left a).trans List.perm_middle

/-- Hoist a cons over four appends. -/
theorem perm_hoist4 {α : Type _} (x : α) (a b c d l : List α) :
    List.Perm (a ++ (b ++ (c ++ (d ++ x :: l)))) (x :: (a ++ (b ++ (c ++ (d ++ l))))) :=
  ((perm_hoist3 x b c d l).append_left a).trans List.perm_middle

/-- The five classification filters partition any list of assignments. -/
theorem classify_filters_perm (now : String) (v : List Dict) :
    List.Perm
      (v.filter (fun a => decide (classify now a = ACat.futureUnsubmitted)) ++
        (v.filter (fun a => decide (classify now a = ACat.futureSubmitted)) ++
          (v.filter (fun a => decide (classify now a = ACat.pastUnsubmitted)) ++
            (v.filter (fun a => decide (classify now a = ACat.pastSubmitted)) ++
              v.filter (fun a => decide (classify now a = ACat.locked)))))) v := by
  induction v with
  | nil => simp
  | cons x rest ih =>
    cases h : classify now x with
    | futureUnsubmitted =>
      simp only [List.filter_cons, h, decide_eq_true_eq, reduceCtorEq, if_true, if_false,
        decide_True, decide_False, if_neg, ite_false, ite_true]
      simpa using List.Perm.cons x ih
    | futureSubmitted =>
      simp only [List.filter_cons, h, decide_eq_true_eq, reduceCtorEq, decide_True,
        decide_False, ite_false, ite_true]
      simpa using (perm_hoist1 x _ _).trans (List.Perm.cons x ih)
    | pastUnsubmitted =>
      simp only [List.filter_cons, h, decide_eq_true_eq, reduceCtorEq, decide_True,
        decide_False, ite_false, ite_true]
      simpa using (perm_hoist2 x _ _ _).trans (List.Perm.cons x ih)
    | pastSubmitted =>
      simp only [List.filter_cons, h, decide_eq_true_eq, reduceCtorEq, decide_True,
        decide_False, ite_false, ite_true]
      simpa using (perm_hoist3 x _ _ _ _).trans (List.Perm.cons x ih)
    | locked =>
      simp only [List.filter_cons, h, decide_eq_true_eq, reduceCtorEq, decide_True,
        decide_False, ite_false, ite_true]
      simpa using (perm_hoist4 x _ _ _ _ _).trans (List.Perm.cons x ih)

/-- The five buckets together are a permutation of the valid (uploadable)
assignments. -/
theorem sort_assignments_perm (now : String) (l : List Dict) :
    List.Perm (sort_assignments now l) (l.filter uploadable) := by
  unfold sort_assignments bucket
  have h1 := List.perm_insertionSort dueLe
    ((List.filter uploadable l).filter (fun a => decide (classify now a = ACat.futureUnsubmitted)))
  have h2 := List.perm_insertionSort dueLe
    ((List.filter uploadable l).filter (fun a => decide (classify now a = ACat.futureSubmitted)))
  have h3 := List.perm_insertionSort dueLe
    ((List.filter uploadable l).filter (fun a => decide (classify now a = ACat.pastUnsubmitted)))
  have h4 := List.perm_insertionSort dueLe
    ((List.filter uploadable l).filter (fun a => decide (classify now a = ACat.pastSubmitted)))
  have h5 := List.perm_insertionSort dueLe
    ((List.filter uploadable l).filter (fun a => decide (classify now a = ACat.locked)))
  exact (h1.append (h2.append (h3.append (h4.append h5)))).trans
    (classify_filters_perm now (List.filter uploadable l))

/-- Claim C4 (amended): `sort_assignments` keeps exactly the
`online_upload`-capable assignments (as a permutation of that filter), is
the concatenation of the five status buckets in priority order, and each
bucket holds exactly its classified assignments sorted ascending by the key
`due_at or "9999-12-31"` — so a missing due date sorts by the sentinel
string rather than unconditionally last. -/
theorem C4_sort_assignments (now : String) (l : List Dict) :
    List.Perm (sort_assignments now l) (l.filter uploadable) ∧
    (∀ a ∈ sort_assignments now l, uploadable a = true) ∧
    sort_assignments now l =
      bucket now .futureUnsubmitted l ++ (bucket now .futureSubmitted l ++
        (bucket now .pastUnsubmitted l ++ (bucket now .pastSubmitted l ++
          bucket now .locked l))) ∧
    (∀ cat : ACat,
      List.Sorted dueLe (bucket now cat l) ∧
      List.Perm (bucket now cat l)
        ((l.filter uploadable).filter (fun a => decide (classify now a = cat))) ∧
      (∀ a ∈ bucket now cat l, classify now a = cat ∧ uploadable a = true)) := by
  refine ⟨sort_assignments_perm now l, ?_, rfl, ?_⟩
  · intro a ha
    exact mem_sort_assignments_uploadable ha
  · intro cat
    refine ⟨List.sorted_insertionSort dueLe _, List.perm_insertionSort dueLe _, ?_⟩
    intro a ha
    exact ⟨(mem_bucket ha).2, (mem_bucket ha).1⟩

/-- An `online_upload` assignment with no due date at all. -/
def aNoDue : Dict := [("submission_types", .arr ["online_upload"]), ("id", .num 1)]

/-- An `online_upload` assignment due at a date above the `"9999-12-31"`
sentinel string. -/
def aFarDue : Dict :=
  [("submission_types", .arr ["online_upload"]), ("id", .num 2),
   ("due_at", .str "9999-12-31T00:00:00")]

/-- Counterexample to claim C4 as stated: both assignments are valid,
unsubmitted, unlocked and not past due (same bucket), yet the one with the
missing due date sorts FIRST, not last, because the missing date becomes the
sentinel key `"9999-12-31"`, which precedes `"9999-12-31T00:00:00"`. -/
theorem C4_sort_assignments_counterexample :
    sort_assignments "2025-01-01T00:00:00" [aFarDue, aNoDue] = [aNoDue, aFarDue] ∧
    dictGet aNoDue "due_at" = none ∧
    dictGet aFarDue "due_at" = some (.str "9999-12-31T00:00:00") ∧
    classify "2025-01-01T00:00:00" aNoDue = classify "2025-01-01T00:00:00" aFarDue := by
  refine ⟨by decide, by decide, by decide, by decide⟩

/-- Witness for the amended C4 at a concrete input. -/
theorem C4_sort_assignments_witness :
    uploadable aNoDue = true ∧
    List.Sorted dueLe (bucket "2025-01-01T00:00:00" .futureUnsubmitted [aFarDue, aNoDue]) :=
  ⟨(C4_sort_assignments "2025-01-01T00:00:00" [aFarDue, aNoDue]).2.1 aNoDue (by decide),
   ((C4_sort_assignments "2025-01-01T00:00:00" [aFarDue, aNoDue]).2.2.2 .futureUnsubmitted).1⟩

/-- A favorite course, an ordinary course, and a nameless record. -/
def courseFav : Dict := [("name", .str "Zoology"), ("is_favorite", .bool true), ("id", .num 3)]

def coursePlain : Dict := [("name", .str "Algebra"), ("id", .num 4)]

def courseNameless : Dict := [("id", .num 5)]

/-- Witness for C10 at a concrete course list: the nameless record is
dropped, the favorite leads despite its later name. -/
theorem C10_sort_courses_witness :
    List.Perm (sort_courses [coursePlain, courseNameless, courseFav])
      ([coursePlain, courseNameless, courseFav].filter (fun c => hasKey c "name")) ∧
    hasKey courseFav "name" = true ∧
    List.Sorted courseLe (sort_courses [coursePlain, courseNameless, courseFav]) ∧
    sort_courses [coursePlain, courseNameless, courseFav] = [courseFav, coursePlain] :=
  ⟨(C10_sort_courses [coursePlain, courseNameless, courseFav]).1,
   (C10_sort_courses [coursePlain, courseNameless, courseFav]).2.1 courseFav (by decide),
   (C10_sort_courses [coursePlain, courseNameless, courseFav]).2.2,
   by decide⟩

/-- `find?` by key is unaffected by filtering away a different key. -/
theorem find_filter_ne {α β : Type _} [DecidableEq α] (l : List (α × β)) (p q : α)
    (h : q ≠ p) :
    (l.filter (fun e => decide (e.1 ≠ p))).find? (fun e => decide (e.1 = q)) =
      l.find? (fun e => decide (e.1 = q)) := by
  rw [List.find?_filter]
  congr 1
  funext a
  by_cases haq : a.1 = q
  · have hap : a.1 ≠ p := fun hc => h (haq ▸ hc)
    simp [haq, hap, h]
  · simp [haq]

/-- The successful branch of `save_config`. -/
theorem save_config_ok (fs : FileSys) (p : FsPath) (config : Dict) (hdir : p.dir ∈ fs.dirs) :
    save_config fs p config =
      .ok ⟨fs.dirs, (p, config) :: fs.files.filter (fun e => decide (e.1 ≠ p))⟩ := by
  simp [save_config, hdir]

/-- Loading the path just saved returns exactly the saved mapping. -/
theorem load_after_save_self (fs : FileSys) (p : FsPath) (config : Dict) :
    load_config ⟨fs.dirs, (p, config) :: fs.files.filter (fun e => decide (e.1 ≠ p))⟩ p =
      config := by
  simp [load_config, List.find?_cons]

/-- Loading any other path is unaffected by the save. -/
theorem load_after_save_other (fs : FileSys) (p : FsPath) (config : Dict) (q : FsPath)
    (hq : q ≠ p) :
    load_config ⟨fs.dirs, (p, config) :: fs.files.filter (fun e => decide (e.1 ≠ p))⟩ q =
      load_config fs q := by
  simp only [load_config, List.find?_cons]
  have hne : ¬ ((p, config).1 = q) := fun hc => hq (hc.symm)
  simp only [hne, decide_False]
  rw [find_filter_ne fs.files p q hq]

/-- Claim C6 (amended): a successful save replaces the scope file wholesale
— a subsequent load returns exactly the given mapping and every other path
is untouched — but saving to a path whose parent directory is missing fails
with `FileNotFoundError` instead of creating the directory. -/
theorem C6_save_config (fs : FileSys) (p : FsPath) (config : Dict) :
    (p.dir ∈ fs.dirs →
      ∃ fs', save_config fs p config = .ok fs' ∧
        load_config fs' p = config ∧
        ∀ q : FsPath, q ≠ p → load_config fs' q = load_config fs q) ∧
    (p.dir ∉ fs.dirs →
      save_config fs p config = .error "FileNotFoundError") := by
  constructor
  · intro hdir
    exact ⟨_, save_config_ok fs p config hdir, load_after_save_self fs p config,
      fun q hq => load_after_save_other fs p config q hq⟩
  · intro hdir
    simp [save_config, hdir]

/-- A file system whose only directory is the home directory: the parent of
the local scope path is missing. -/
def fsNoCwd : FileSys := ⟨["home"], []⟩

/-- Counterexample to claim C6 as stated: saving to a path whose parent
directory does not exist fails — `save_config` does not create parent
directories. -/
theorem C6_save_config_counterexample :
    save_config fsNoCwd LOCAL_CONFIG_PATH [("k", .str "v")] = .error "FileNotFoundError" := rfl

/-- Witness for the amended C6 at a concrete file system: the save replaces
the whole file and leaves the other scope file alone; the failure branch
fires when the directory is absent. -/
theorem C6_save_config_witness :
    (∃ fs', save_config fsC1 LOCAL_CONFIG_PATH [("only", .str "x")] = .ok fs' ∧
      load_config fs' LOCAL_CONFIG_PATH = [("only", .str "x")] ∧
      ∀ q : FsPath, q ≠ LOCAL_CONFIG_PATH →
        load_config fs' q = load_config fsC1 q) ∧
    save_config fsNoCwd LOCAL_CONFIG_PATH [] = .error "FileNotFoundError" :=
  ⟨(C6_save_config fsC1 LOCAL_CONFIG_PATH [("only", .str "x")]).1 (by decide),
   (C6_save_config fsNoCwd LOCAL_CONFIG_PATH []).2 (by decide)⟩

/-- After `del config[key]` the key is gone. -/
theorem dictGet_delKey_self (config : Dict) (k : String) :
    dictGet (delKey config k) k = none := by
  unfold dictGet delKey
  rw [List.find?_eq_none.mpr]
  · rfl
  · intro e he
    have := (List.mem_filter.mp he).2
    simpa using this

/-- `del config[key]` keeps exactly the bindings of other keys. -/
theorem mem_delKey (config : Dict) (k k2 : String) (v2 : JVal) :
    (k2, v2) ∈ delKey config k ↔ (k2, v2) ∈ config ∧ k2 ≠ k := by
  simp [delKey, List.mem_filter]

/-- Claim C7: with a single requested scope (and its directory present),
unsetting an absent key reports "not found" and leaves the file system —
hence the scope file — untouched; unsetting a present key rewrites the scope
file to the mapping with exactly that binding removed, every other binding
and every other file unchanged. -/
theorem C7_unset_semantics (fs : FileSys) (key : String) (g l : Bool)
    (hgl : ¬(g = true ∧ l = true))
    (hdir : (get_config_path g l).dir ∈ fs.dirs) :
    (dictGet (load_config fs (get_config_path g l)) key = none →
      handle_config_unset fs key g l = .ok (.notFound, fs)) ∧
    (∀ v : JVal, dictGet (load_config fs (get_config_path g l)) key = some v →
      ∃ fs', handle_config_unset fs key g l = .ok (.unsetOk, fs') ∧
        load_config fs' (get_config_path g l) =
          delKey (load_config fs (get_config_path g l)) key ∧
        dictGet (load_config fs' (get_config_path g l)) key = none ∧
        (∀ (k2 : String) (v2 : JVal),
          (k2, v2) ∈ load_config fs' (get_config_path g l) ↔
            (k2, v2) ∈ load_config fs (get_config_path g l) ∧ k2 ≠ key) ∧
        (∀ q : FsPath, q ≠ get_config_path g l → load_config fs' q = load_config fs q)) := by
  have hb : (g && l) = false := by
    cases g <;> cases l <;> simp_all
  constructor
  · intro habs
    unfold handle_config_unset
    simp [hb, habs]
  · intro v hv
    refine ⟨⟨fs.dirs, (get_config_path g l,
        delKey (load_config fs (get_config_path g l)) key) ::
        fs.files.filter (fun e => decide (e.1 ≠ get_config_path g l))⟩, ?_, ?_, ?_, ?_, ?_⟩
    · unfold handle_config_unset
      simp [hb, hv, save_config_ok fs _ _ hdir, Except.map]
    · exact load_after_save_self fs _ _
    · rw [load_after_save_self fs _ _]
      exact dictGet_delKey_self _ key
    · intro k2 v2
      rw [load_after_save_self fs _ _]
      exact mem_delKey _ key k2 v2
    · intro q hq
      exact load_after_save_other fs _ _ q hq

/-- Concrete files for the C7 witness. -/
def fsC7 : FileSys :=
  ⟨["home", "cwd"], [(LOCAL_CONFIG_PATH, [("a", .str "1"), ("b", .str "2")])]⟩

/-- Witness for C7: unsetting an absent key leaves the file system equal;
unsetting a present key rewrites the local file without the binding. -/
theorem C7_unset_semantics_witness :
    handle_config_unset fsC7 "z" false true = .ok (.notFound, fsC7) ∧
    (∃ fs', handle_config_unset fsC7 "b" false true = .ok (.unsetOk, fs') ∧
      load_config fs' (get_config_path false true) =
        delKey (load_config fsC7 (get_config_path false true)) "b" ∧
      dictGet (load_config fs' (get_config_path false true)) "b" = none ∧
      (∀ (k2 : String) (v2 : JVal),
        (k2, v2) ∈ load_config fs' (get_config_path false true) ↔
          (k2, v2) ∈ load_config fsC7 (get_config_path false true) ∧ k2 ≠ "b") ∧
      (∀ q : FsPath, q ≠ get_config_path false true →
        load_config fs' q = load_config fsC7 q)) :=
  ⟨(C7_unset_semantics fsC7 "z" false true (by decide) (by decide)).1 (by decide),
   (C7_unset_semantics fsC7 "b" false true (by decide) (by decide)).2 (.str "2") (by decide)⟩

/-- A dict with a key is nonempty (hence truthy as a Python dict). -/
theorem ne_nil_of_hasKey {c : Dict} {k : String} (h : hasKey c k = true) : c ≠ [] := by
  intro hc
  subst hc
  simp [hasKey, dictGet] at h

/-- An `online_upload`-capable assignment record is nonempty (truthy). -/
theorem ne_nil_of_uploadable {a : Dict} (h : uploadable a = true) : a ≠ [] := by
  intro hc
  subst hc
  simp [uploadable, dictGet] at h

/-- A singleton course stage auto-selects without reading input. -/
theorem fallback_tui_single_course (c : Dict) (inputs : List String) :
    fallback_tui [c] none none inputs = (some c, none, none, inputs) := rfl

/-- Singleton course and assignment stages auto-select without reading
input. -/
theorem fallback_tui_single_ca (c a : Dict) (inputs : List String) :
    fallback_tui [c] (some [a]) none inputs = (some c, some a, none, inputs) := rfl

/-- The single course offered in the C9 scenario. -/
def fbCourse : Dict :=
  [("name", .str "Math 101"), ("id", .num 10), ("is_favorite", .bool true)]

/-- The single upload-capable assignment offered in the C9 scenario. -/
def fbAssignment : Dict :=
  [("submission_types", .arr ["online_upload"]), ("id", .num 77), ("name", .str "HW 1")]

/-- Claim C9, evaluated at the one-course/one-assignment scenario with file
selection disabled and a non-empty input stream: `fallback_tui` itself
auto-selects both singleton stages and returns the assignment correctly
without reading any input, but the fallback branch of `run_tui` returns the
COURSE record in the assignment slot — `assignment, _, _ =
fallback_tui([course], assignments, ctx=ctx)` binds the first component of
the `(course, assignment, file)` triple — so the workflow yields
`(thatCourse, thatCourse, None)` instead of `(thatCourse, thatAssignment,
None)`.  The input stream comes back untouched: no prompt was issued. -/
theorem C9_fallback_auto_select :
    runTuiFallback false "2025-01-01T00:00:00" [fbCourse] (fun _ => [fbAssignment])
        ["f.py"] ["9"] =
      ((some fbCourse, some fbCourse, none), ["9"]) ∧
    fallback_tui [fbCourse] (some [fbAssignment]) none ["9"] =
      (some fbCourse, some fbAssignment, none, ["9"]) ∧
    fbCourse ≠ fbAssignment ∧
    sort_courses [fbCourse] = [fbCourse] ∧
    sort_assignments "2025-01-01T00:00:00" [fbAssignment] = [fbAssignment] := by
  refine ⟨by decide, by decide, by decide, by decide, by decide⟩

/-- Local config file contents for the C5 scenario. -/
def pushLocalCfg : Dict :=
  [("course_id", .num 7), ("assignment_id", .num 8), ("file", .str "cfg.py")]

/-- File system for the C5 scenario: only the local scope file exists. -/
def pushFs : FileSys := ⟨["home", "cwd"], [(LOCAL_CONFIG_PATH, pushLocalCfg)]⟩

/-- The course the user picks in the TUI. -/
def tuiCourse : Dict := [("id", .num 42), ("name", .str "Course 42")]

/-- The assignment the user picks in the TUI. -/
def tuiAssignment : Dict := [("id", .num 99), ("name", .str "HW 9")]

/-- `ctx.params` when the user passed only `--tui`: typer stores `None` for
the unpassed `--course-id`, `--assignment-id` and `--file` options. -/
def pushParams : Dict :=
  [("course_id", .null), ("assignment_id", .null), ("file", .null)]

/-- Claim C5, evaluated: whenever the TUI completes, `handle_push` proceeds
with `handle_push_rest`, whose ids come only from `ctx.params` and the
config cascade — the TUI result never reaches it; concretely, with local
config ids 7/8 and the user selecting course 42, assignment 99 and file
`picked.py` in the TUI, the API call is made with 7, 8 and `cfg.py`. -/
theorem C5_tui_ids_drive_api :
    (∀ (fs : FileSys) (params : Dict) (course assignment : Dict) (file? : Option String)
        (existingFiles : List String),
      handle_push fs params true (some (some course, some assignment, file?)) existingFiles =
        handle_push_rest fs params existingFiles) ∧
    handle_push pushFs pushParams true
        (some (some tuiCourse, some tuiAssignment, some "picked.py"))
        ["cfg.py", "picked.py"] =
      .submitted (some (.num 7)) (some (.num 8)) (some (.str "cfg.py")) ∧
    dictGet tuiCourse "id" = some (.num 42) ∧
    dictGet tuiAssignment "id" = some (.num 99) ∧
    (JVal.num 7 ≠ JVal.num 42 ∧ JVal.num 8 ≠ JVal.num 99) := by
  refine ⟨fun fs params course assignment file? existingFiles => rfl,
    by decide, by decide, by decide, by decide, by decide⟩

end CanvasCli
